import Mathlib

/-!
Shallow embedding of `ufw_tui.py` (UFW TUI Manager).

The embedding translates the pure/state-manipulating parts of the program:

* `UFWManager.get_rules` status-numbered parsing (including the regex
  `\s*\[\s*(\d+)\]\s+(.+?)\s+(ALLOW|DENY|REJECT)\s+(IN|OUT)\s+(.+)` with
  Python `re.match` backtracking semantics),
* the controller state (`UFWTUI.__init__`, `move_selection`, `change_view`,
  `refresh`, `execute_selected`, `add_allow_rule`, `add_deny_rule`),
* the renderer (`safe_addstr`, `draw_screen` and the panel helpers), modelled
  as a pure function from state and terminal dimensions to the list of
  performed screen writes.

Python `int` values that can go negative (selection indexes, direction) are
modelled as `Int`; terminal dimensions from `getmaxyx` are natural numbers.
Strings are modelled as Lean `String` (ASCII text throughout the program).
-/

/-! ### Python string primitives -/

/-- Python `\s` / `str.strip` whitespace over ASCII text. -/
def isPySpace (c : Char) : Bool :=
  c = ' ' || c = '\t' || c = '\n' || c = '\r' || c = '\x0b' || c = '\x0c'

/-- `str.strip()` on a character list. -/
def pyStripL (cs : List Char) : List Char :=
  ((cs.dropWhile isPySpace).reverse.dropWhile isPySpace).reverse

/-- `str.strip()`. -/
def pyStrip (s : String) : String := ⟨pyStripL s.data⟩

/-- Python slicing `text[:n]` for `n ≥ 0`. -/
def strTake (s : String) (n : Nat) : String := ⟨s.data.take n⟩

/-- Python `str.ljust(n)` (space fill). -/
def ljust (s : String) (n : Nat) : String :=
  ⟨s.data ++ List.replicate (n - s.data.length) ' '⟩

/-- Python format `{x:>n}` / `str.rjust(n)` (space fill). -/
def rjust (s : String) (n : Nat) : String :=
  ⟨List.replicate (n - s.data.length) ' ' ++ s.data⟩

/-- Python `str.lower()` (the program only compares ASCII text). -/
def lowerStr (s : String) : String := ⟨s.data.map Char.toLower⟩

/-- Does `cs` start with `pat`? -/
def startsWithL : List Char → List Char → Bool
  | _, [] => true
  | [], _ :: _ => false
  | c :: cs, p :: ps => c = p && startsWithL cs ps

/-- Python substring test `pat in cs`. -/
def containsSubL : List Char → List Char → Bool
  | [], pat => startsWithL [] pat
  | c :: rest, pat => startsWithL (c :: rest) pat || containsSubL rest pat

/-- Python `sub in s`. -/
def strContainsSub (s sub : String) : Bool := containsSubL s.data sub.data

/-- Python `str.split('\n')`: split on every newline, keeping empty pieces. -/
def splitNl (cs : List Char) : List (List Char) :=
  cs.foldr
    (fun c acc =>
      if c = '\n' then [] :: acc
      else
        match acc with
        | h :: t => (c :: h) :: t
        | [] => [[c]])
    [[]]

/-- Python `str.split()` with no argument: split on whitespace runs,
dropping empty pieces. -/
def splitWSL (cs : List Char) : List (List Char) :=
  let p :=
    cs.foldr
      (fun c (acc : List Char × List (List Char)) =>
        if isPySpace c then
          if acc.1 = [] then ([], acc.2) else ([], acc.1 :: acc.2)
        else (c :: acc.1, acc.2))
      ([], [])
  if p.1 = [] then p.2 else p.1 :: p.2

/-- `str.split()` on a `String`. -/
def pySplitWS (s : String) : List String := (splitWSL s.data).map (fun l => ⟨l⟩)

/-- Python list indexing `l[i]` (negative indexes count from the end; an
index out of range raises `IndexError`, modelled as `none`). -/
def pyIndex {α : Type} (l : List α) (i : Int) : Option α :=
  if 0 ≤ i then l.get? i.toNat
  else if 0 ≤ i + l.length then l.get? (i + l.length).toNat
  else none

/-! ### Data model (`ViewMode`, `UFWRule`, snapshot of `UFWManager` data) -/

/-- `class ViewMode(Enum)`. -/
inductive ViewMode where
  | RULES
  | APPS
  | LISTENING
deriving DecidableEq, Repr

/-- `ViewMode.value`. -/
def ViewMode.value : ViewMode → String
  | .RULES => "rules"
  | .APPS => "apps"
  | .LISTENING => "listening"

/-- `ViewMode.value.upper()` as used in the footer. -/
def ViewMode.valueUpper : ViewMode → String
  | .RULES => "RULES"
  | .APPS => "APPS"
  | .LISTENING => "LISTENING"

/-- `@dataclass class UFWRule` (the Python field `to` is a Lean keyword and
is renamed `to_`). -/
structure UFWRule where
  num : String
  to_ : String
  action : String
  from_addr : String
deriving DecidableEq, Repr

/-- `UFWRule.__str__`: `f"{num:>3} {action:<6} {to:<20} from {from_addr}"`. -/
def ruleStr (r : UFWRule) : String :=
  rjust r.num 3 ++ " " ++ ljust r.action 6 ++ " " ++ ljust r.to_ 20
    ++ " from " ++ r.from_addr

/-- The three parsed collections held by `UFWManager`
(`rules`, `apps`, `listening_ports`). -/
structure Snapshot where
  rules : List UFWRule
  apps : List String
  listening_ports : List (String × String × String)
deriving DecidableEq, Repr

/-! ### Status-numbered output parsing (`UFWManager.get_rules`)

`get_rules` applies, to each remaining line, Python
`re.match(r'\s*\[\s*(\d+)\]\s+(.+?)\s+(ALLOW|DENY|REJECT)\s+(IN|OUT)\s+(.+)',
line.strip())`.  The functions below implement that regex with the engine's
leftmost/greedy backtracking order.  The input lines come from
`out.split('\n')`, so they never contain `'\n'`; the restriction that `.`
does not match a newline is therefore vacuous and is not modelled. -/

/-- Ordered alternation `(A|B|...)`: try each literal in turn as a prefix. -/
def matchAlt : List String → List Char → Option (String × List Char)
  | [], _ => none
  | a :: rest, cs =>
    if startsWithL cs a.data then some (a, cs.drop a.data.length)
    else matchAlt rest cs

/-- Final part `\s+(.+)` of the regex: a greedy whitespace run, then at least
one character.  If everything after the first whitespace is whitespace, the
engine backtracks `\s+` so that the group still gets one (whitespace)
character; that needs at least two characters in total. -/
def tailEnd (cs : List Char) : Option String :=
  match cs with
  | [] => none
  | c :: rest =>
    if ¬ isPySpace c then none
    else
      let body := (c :: rest).dropWhile isPySpace
      if body ≠ [] then some ⟨body⟩
      else if rest ≠ [] then some ⟨[rest.getLastD ' ']⟩
      else none

/-- `\s+(ALLOW|DENY|REJECT)\s+(IN|OUT)\s+(.+)` immediately after the lazy
group.  Each greedy `\s+` is deterministic here because none of the
alternatives begins with whitespace, and the alternatives of each group are
prefix-disjoint. -/
def matchTail (cs : List Char) : Option (String × String × String) :=
  let cs1 := cs.dropWhile isPySpace
  if cs1.length = cs.length then none
  else
    match matchAlt ["ALLOW", "DENY", "REJECT"] cs1 with
    | none => none
    | some (act, cs2) =>
      let cs3 := cs2.dropWhile isPySpace
      if cs3.length = cs2.length then none
      else
        match matchAlt ["IN", "OUT"] cs3 with
        | none => none
        | some (dir, cs4) =>
          match tailEnd cs4 with
          | none => none
          | some fromA => some (act, dir, fromA)

/-- The lazy group `(.+?)` followed by `matchTail`: grow the group one
character at a time (shortest first, the lazy preference) until the tail
matches at the split point. -/
def lazyLoop (acc : List Char) : List Char → Option (String × String × String × String)
  | [] => none
  | c :: rest =>
    match matchTail rest with
    | some (act, dir, fromA) => some (⟨(acc ++ [c] : List Char)⟩, act, dir, fromA)
    | none => lazyLoop (acc ++ [c]) rest

/-- `\s+(.+?)...` after the closing bracket: the greedy `\s+` prefers the
longest whitespace run, backtracking one character at a time (so the lazy
group may end up starting inside the whitespace run) until the rest of the
pattern matches. -/
def goSpaces : Nat → List Char → Option (String × String × String × String)
  | 0, _ => none
  | Nat.succ s, cs =>
    match lazyLoop [] (cs.drop (Nat.succ s)) with
    | some r => some r
    | none => goSpaces s cs

/-- Whole `\s+(.+?)\s+(ALLOW|DENY|REJECT)\s+(IN|OUT)\s+(.+)` suffix of the
regex, applied right after `]`. -/
def spaceLazy (cs : List Char) : Option (String × String × String × String) :=
  goSpaces (cs.takeWhile isPySpace).length cs

/-- One iteration of the `get_rules` loop: the guard
`line.strip() and '[' in line and ']' in line` followed by the `re.match`
(anchored at the start of `line.strip()`) and the construction
`UFWRule(num, f"{to} {direction}", action, from_addr)`. -/
def parseRuleLine (line : List Char) : Option UFWRule :=
  if pyStripL line ≠ [] ∧ line.contains '[' ∧ line.contains ']' then
    let cs := (pyStripL line).dropWhile isPySpace
    match cs with
    | '[' :: cs1 =>
      let cs2 := cs1.dropWhile isPySpace
      let digits := cs2.takeWhile Char.isDigit
      let cs3 := cs2.dropWhile Char.isDigit
      if digits = [] then none
      else
        match cs3 with
        | ']' :: cs4 =>
          match spaceLazy cs4 with
          | some (toPart, act, dir, fromA) =>
            some ⟨⟨digits⟩, toPart ++ " " ++ dir, act, fromA⟩
          | none => none
        | _ => none
    | _ => none
  else none

/-- `UFWManager.get_rules`, given the `(stdout, returncode)` of
`sudo ufw status numbered`: on failure return `[]`, otherwise drop the
4-line header of `out.split('\n')` and parse each remaining line, silently
skipping the ones the pattern rejects. -/
def get_rules (code : Int) (out : String) : List UFWRule :=
  if code ≠ 0 then []
  else ((splitNl out.data).drop 4).filterMap parseRuleLine

/-! ### Controller actions and the command menu (`UFWTUI.left_commands`)

The Python menu stores bound methods / lambdas; the finite set of actions is
modelled as a closed inductive type, matching each callable. -/

/-- The callables stored in `left_commands`. -/
inductive MenuAction where
  | addAllow
  | addDeny
  | deleteRule
  | toggleUFW
  | resetUFW
  | setViewA (m : ViewMode)
  | refreshA
  | quitA
deriving DecidableEq, Repr

/-- `UFWTUI.left_commands`: labels with their action (entries with an empty
label are separators and carry `None`). -/
def left_commands : List (String × Option MenuAction) :=
  [("Add ALLOW rule", some .addAllow),
   ("Add DENY rule", some .addDeny),
   ("Delete rule", some .deleteRule),
   ("", none),
   ("Enable/Disable UFW", some .toggleUFW),
   ("Reset UFW", some .resetUFW),
   ("", none),
   ("View: Rules", some (.setViewA .RULES)),
   ("View: Applications", some (.setViewA .APPS)),
   ("View: Listening ports", some (.setViewA .LISTENING)),
   ("", none),
   ("Refresh data", some .refreshA),
   ("Exit", some .quitA)]

/-- The labels of `left_commands` (first components). -/
def left_labels : List String := left_commands.map Prod.fst

/-- `[cmd for cmd, _ in self.left_commands if cmd]` from `move_selection`. -/
def visibleCommands : List String := left_labels.filter (fun c => c ≠ "")

/-- `[(i, cmd, func) for i, (cmd, func) in enumerate(self.left_commands) if cmd]`
from `execute_selected` (the enumerate index is bound to `_` and dropped). -/
def selectableCmds (cmds : List (String × Option MenuAction)) :
    List (String × Option MenuAction) :=
  cmds.filter (fun p => p.1 ≠ "")

/-! ### Controller state (`UFWTUI`) -/

/-- The mutable fields of `UFWTUI` touched by the modelled operations
(`running` and `message_time` are irrelevant to the claims and omitted). -/
structure State where
  current_view : ViewMode
  selected_left : Int
  selected_right : Int
  focus_left : Bool
  message : String
  snap : Snapshot
deriving DecidableEq, Repr

/-- `UFWTUI.__init__`: the initial controller state, with the snapshot
produced by the constructor's `refresh_data()` call (external data). -/
def initState (snap : Snapshot) : State :=
  { current_view := .RULES
    selected_left := 0
    selected_right := 0
    focus_left := true
    message := ""
    snap := snap }

/-- Length of the data collection of the current view, as computed by the
`if/elif/else` chain in `move_selection`. -/
def activeCount (st : State) : Nat :=
  match st.current_view with
  | .RULES => st.snap.rules.length
  | .APPS => st.snap.apps.length
  | .LISTENING => st.snap.listening_ports.length

/-- `UFWTUI.move_selection(direction, left)`. -/
def move_selection (st : State) (direction : Int) (left : Bool) : State :=
  if left then
    if 0 ≤ (visibleCommands.length : Int) - 1 then
      { st with
        selected_left :=
          max 0 (min ((visibleCommands.length : Int) - 1)
            (st.selected_left + direction)) }
    else st
  else
    if 0 ≤ (activeCount st : Int) - 1 then
      { st with
        selected_right :=
          max 0 (min ((activeCount st : Int) - 1)
            (st.selected_right + direction)) }
    else st

/-- `UFWTUI.change_view(view_mode)`. -/
def change_view (st : State) (m : ViewMode) : State :=
  { st with
    current_view := m
    selected_right := 0
    message := "View changed: " ++ m.value }

/-- `UFWTUI.refresh()`: `refresh_data()` replaces the whole snapshot with
freshly fetched external data (given here as an argument). -/
def refreshOp (st : State) (snap : Snapshot) : State :=
  { st with snap := snap, message := "Data refreshed" }

/-- `UFWTUI.execute_selected()`: the action that gets invoked, if any
(`None` both for an out-of-range selection and for a separator slot). -/
def execute_selected (st : State) : Option MenuAction :=
  let visible := selectableCmds left_commands
  if st.selected_left < (visible.length : Int) then
    match pyIndex visible st.selected_left with
    | some (_, f) => f
    | none => none
  else none

/-- `UFWTUI.add_allow_rule()`.  `rawInput` is the text typed at the prompt
(`get_input` returns it stripped, modelled by `pyStrip`); `extSuccess` /
`extErr` are the outcome of the external `sudo ufw ...` call and `newSnap`
the data fetched by the refresh that follows a success.  Returns the new
state together with the argument list of the external command run, if any. -/
def add_allow_rule (st : State) (rawInput : String) (extSuccess : Bool)
    (extErr : String) (newSnap : Snapshot) : State × Option (List String) :=
  let rule := pyStrip rawInput
  if rule ≠ "" then
    let cmd := ["sudo", "ufw"] ++ pySplitWS ("allow " ++ rule)
    let msg := if extSuccess then "Rule added successfully" else extErr
    let st1 := { st with message := msg }
    (if extSuccess then refreshOp st1 newSnap else st1, some cmd)
  else (st, none)

/-- `UFWTUI.add_deny_rule()`, same shape as `add_allow_rule`. -/
def add_deny_rule (st : State) (rawInput : String) (extSuccess : Bool)
    (extErr : String) (newSnap : Snapshot) : State × Option (List String) :=
  let rule := pyStrip rawInput
  if rule ≠ "" then
    let cmd := ["sudo", "ufw"] ++ pySplitWS ("deny " ++ rule)
    let msg := if extSuccess then "Rule added successfully" else extErr
    let st1 := { st with message := msg }
    (if extSuccess then refreshOp st1 newSnap else st1, some cmd)
  else (st, none)

/-! ### Reachable controller states

The events of `handle_input` that touch the view/selection state, plus the
data refresh (whose fetched snapshot is external input).  Key up/down move
the selection of whichever panel currently has focus, exactly as in
`handle_input`. -/

/-- One user/controller event. -/
inductive Ev where
  | key_up
  | key_down
  | key_left
  | key_right
  | set_view (m : ViewMode)
  | do_refresh (snap : Snapshot)

/-- Apply one event to the controller state. -/
def stepEv (st : State) : Ev → State
  | .key_up => move_selection st (-1) st.focus_left
  | .key_down => move_selection st 1 st.focus_left
  | .key_left => { st with focus_left := true }
  | .key_right => { st with focus_left := false }
  | .set_view m => change_view st m
  | .do_refresh snap => refreshOp st snap

/-- States reachable from start-up (with arbitrary initial external data)
by any sequence of events. -/
inductive Reachable : State → Prop where
  | init : ∀ snap, Reachable (initState snap)
  | step : ∀ st e, Reachable st → Reachable (stepEv st e)

/-! ### Renderer (`safe_addstr`, `draw_screen` and helpers)

The renderer is modelled as a pure function from the controller state, the
terminal dimensions `(height, width)` of `stdscr` (`curses.LINES = height`),
and the externally observed firewall status, to the ordered list of screen
writes actually performed.  Every write of `draw_screen` goes through
`safe_addstr` on `stdscr`; the model first collects the requested writes and
then filters them through `safe_addstr`. -/

/-- One screen write: row, column, text, and the curses attribute
(`0` = plain, color pair numbers as set up in `run`: `1` header,
`2` selection, `3` error, `4` success). -/
structure Wr where
  y : Nat
  x : Nat
  text : String
  attr : Nat
deriving DecidableEq, Repr

/-- `UFWTUI.safe_addstr(win, y, x, text, attr)` with `win` of size
`(maxY, maxX)`: bounds-check, truncate to `max_x - x - 1` columns, drop the
write when no width is available.  Coordinates here are natural numbers
(the program never computes a negative coordinate), so the Nat subtraction
`maxX - x - 1` agrees with the Python integer arithmetic under the guard
`x < maxX`.  The `curses.error` catch never fires in the model: truncation
keeps every write strictly left of the final column. -/
def safe_addstr (maxY maxX : Nat) (r : Wr) : Option Wr :=
  if maxY ≤ r.y ∨ maxX ≤ r.x then none
  else if maxX - r.x - 1 = 0 then none
  else some ⟨r.y, r.x, strTake r.text (maxX - r.x - 1), r.attr⟩

/-- `draw_screen` message styling (line 223): success color pair 4 when the
message contains `"success"` case-insensitively, else error color pair 3. -/
def messageAttr (msg : String) : Nat :=
  if strContainsSub (lowerStr msg) "success" then 4 else 3

/-- The `for i, (cmd, _) in enumerate(self.left_commands)` loop of
`draw_left_panel`: `y` starts at 3, breaks at `curses.LINES - 3`, a
separator only advances `y`, and the selected visible entry (when the left
panel has focus) is drawn highlighted one column to the left, padded to
`max_width - 2`. -/
def draw_left_loop (h mid : Nat) (sl : Int) (fl : Bool) :
    List String → Nat → Nat → List Wr
  | [], _, _ => []
  | cmd :: rest, y, vis =>
    if h - 3 ≤ y then []
    else if cmd = "" then draw_left_loop h mid sl fl rest (y + 1) vis
    else
      (if (vis : Int) = sl ∧ fl then
        Wr.mk y 1 (ljust (" " ++ cmd ++ " ") (mid - 2)) 2
      else Wr.mk y 2 cmd 0)
        :: draw_left_loop h mid sl fl rest (y + 1) (vis + 1)

/-- `UFWTUI.draw_left_panel(max_width)` with `max_width = width // 2`. -/
def draw_left_panel (h mid : Nat) (st : State) : List Wr :=
  Wr.mk 1 2 "COMMANDS:" 0
    :: draw_left_loop h mid st.selected_left st.focus_left left_labels 3 0

/-- The item loop shared by `draw_rules_panel`, `draw_apps_panel` and
`draw_listening_panel`: `y` starts at 3, breaks at `curses.LINES - 3`, and
the item at `selected_right` (when `selOn`, i.e. the view matches and focus
is on the right panel) is drawn highlighted at `start_col - 1`, padded to
the panel width. -/
def draw_items_loop (h startCol pw : Nat) (sr : Int) (selOn : Bool) :
    List String → Nat → Nat → List Wr
  | [], _, _ => []
  | item :: rest, y, i =>
    if h - 3 ≤ y then []
    else
      (if (i : Int) = sr ∧ selOn then
        Wr.mk y (startCol - 1) (ljust (" " ++ item ++ " ") pw) 2
      else Wr.mk y startCol item 0)
        :: draw_items_loop h startCol pw sr selOn rest (y + 1) (i + 1)

/-- `f"{proto:<4} {port:<6} {state}"` from `draw_listening_panel`. -/
def portText (p : String × String × String) : String :=
  ljust p.1 4 ++ " " ++ ljust p.2.1 6 ++ " " ++ p.2.2

/-- `UFWTUI.draw_right_panel(start_col, max_width)` (called with
`start_col = width // 2`, `max_width = width`), inlining the three
per-view panel bodies, which differ only in title, empty-collection text
and item rendering. -/
def draw_right_panel (h w : Nat) (st : State) : List Wr :=
  let startCol := w / 2 + 2
  if w ≤ startCol + 2 then []
  else
    let pw := w - startCol - 2
    match st.current_view with
    | .RULES =>
      Wr.mk 1 startCol "UFW RULES:" 0
        :: (if st.snap.rules = [] then [Wr.mk 3 startCol "No rules configured" 0]
            else
              draw_items_loop h startCol pw st.selected_right
                (st.current_view = ViewMode.RULES && !st.focus_left)
                (st.snap.rules.map ruleStr) 3 0)
    | .APPS =>
      Wr.mk 1 startCol "APPLICATIONS:" 0
        :: (if st.snap.apps = [] then [Wr.mk 3 startCol "No applications available" 0]
            else
              draw_items_loop h startCol pw st.selected_right
                (st.current_view = ViewMode.APPS && !st.focus_left)
                st.snap.apps 3 0)
    | .LISTENING =>
      Wr.mk 1 startCol "LISTENING PORTS:" 0
        :: (if st.snap.listening_ports = [] then [Wr.mk 3 startCol "No listening ports" 0]
            else
              draw_items_loop h startCol pw st.selected_right
                (st.current_view = ViewMode.LISTENING && !st.focus_left)
                (st.snap.listening_ports.map portText) 3 0)

/-- The write requests issued by `UFWTUI.draw_screen`, in program order:
the too-small banner, or header, divider column, left panel, right panel,
footer, and pending message. -/
def draw_reqs (h w : Nat) (st : State) (status : Bool) : List Wr :=
  if h < 10 ∨ w < 40 then [Wr.mk 0 0 "Terminal too small! Min: 40x10" 0]
  else
    let header :=
      " UFW TUI Manager - Status: "
        ++ (if status then "ACTIVE" else "INACTIVE") ++ " "
    Wr.mk 0 0 (ljust header w) 1
      :: ((List.range' 1 (h - 3)).map (fun i => Wr.mk i (w / 2) "|" 0)
        ++ draw_left_panel h (w / 2) st
        ++ draw_right_panel h w st
        ++ [Wr.mk (h - 1) 0
              (ljust (" F1:Help F5:Refresh F10:Quit | View: "
                ++ st.current_view.valueUpper ++ " ") w) 1]
        ++ (if st.message ≠ "" ∧ 3 < h
            then [Wr.mk (h - 2) 2 st.message (messageAttr st.message)]
            else []))

/-- `UFWTUI.draw_screen` on a terminal of size `(h, w)`: the list of writes
that reach the screen. -/
def draw_screen (h w : Nat) (st : State) (status : Bool) : List Wr :=
  (draw_reqs h w st status).filterMap (safe_addstr h w)

/-! ### Iteration helper and concrete example data -/

/-- `k` successive `move_selection(1, left=False)` calls (key-down with the
right panel focused). -/
def iterMoveDown : Nat → State → State
  | 0, st => st
  | Nat.succ k, st => iterMoveDown k (move_selection st 1 false)

/-- A sample parsed rule. -/
def exRule : UFWRule := ⟨"1", "22/tcp IN", "ALLOW", "Anywhere"⟩

/-- A snapshot with three rules. -/
def snap3 : Snapshot := ⟨[exRule, exRule, exRule], [], []⟩

/-- A snapshot with one rule. -/
def snap1 : Snapshot := ⟨[exRule], [], []⟩

/-- A reachable state exercising a shrinking refresh: start with three
rules, focus the right panel, move down twice, then refresh to a one-rule
snapshot. -/
def shrunkSt : State :=
  stepEv (stepEv (stepEv (stepEv (initState snap3) .key_right) .key_down)
    .key_down) (.do_refresh snap1)

/-- A sample controller state used to instantiate universally quantified
render theorems. -/
def exState : State :=
  { current_view := .RULES
    selected_left := 0
    selected_right := 0
    focus_left := true
    message := ""
    snap := snap1 }

/-- A sample state with a pending success message. -/
def exMsgState : State := { exState with message := "Rule added successfully" }

/-- A sample `ufw status numbered` stdout: four header lines (the first of
which even looks like a rule line, showing that the header is skipped
unparsed), then one rule line and one non-matching line. -/
def exStatusOut : String :=
  "[ 9] 99/tcp ALLOW IN ShouldBeSkipped\nStatus: active\n\nTo    Action    From\n[ 1] 22/tcp                     ALLOW IN    Anywhere\n(v6) lines without brackets are skipped"

/-! ## Helper lemmas -/

theorem strTake_length_le (s : String) (n : Nat) : (strTake s n).length ≤ n := by
  show (s.data.take n).length ≤ n
  simp [List.length_take]

theorem safe_addstr_some_bounds {maxY maxX : Nat} {r wr : Wr}
    (h : safe_addstr maxY maxX r = some wr) :
    wr.y < maxY ∧ wr.x < maxX ∧ wr.text.length ≤ maxX - wr.x - 1 ∧
      wr.x + wr.text.length < maxX := by
  unfold safe_addstr at h
  split at h
  · exact absurd h (by simp)
  · split at h
    · exact absurd h (by simp)
    · rename_i hg havail
      push_neg at hg
      injection h with h'
      subst h'
      have hlen := strTake_length_le r.text (maxX - r.x - 1)
      dsimp only
      refine ⟨by omega, by omega, hlen, by omega⟩

/-! ## Claim C5 -/

/-- Claim C5: for every prior state and every view kind, `change_view`
sets the view kind, resets the right-panel selection to 0, and leaves
both the focus flag and the left-panel selection unchanged. -/
theorem C5_change_view_effect (st : State) (m : ViewMode) :
    (change_view st m).current_view = m ∧
    (change_view st m).selected_right = 0 ∧
    (change_view st m).focus_left = st.focus_left ∧
    (change_view st m).selected_left = st.selected_left :=
  ⟨rfl, rfl, rfl, rfl⟩

/-! ## Claim C9 -/

/-- Claim C9: `safe_addstr` reserves the last terminal column.  A performed
write is truncated to at most `max_x - x - 1` characters, so column
`max_x - 1` is never covered; and a call with `y ≥ max_y`, `x ≥ max_x`, or
no available width performs no write at all. -/
theorem C9_safe_addstr_reserves_last_column (maxY maxX : Nat) (r : Wr) :
    (∀ wr : Wr, safe_addstr maxY maxX r = some wr →
        wr.text.length ≤ maxX - r.x - 1 ∧ wr.x + wr.text.length < maxX) ∧
    (maxY ≤ r.y → safe_addstr maxY maxX r = none) ∧
    (maxX ≤ r.x → safe_addstr maxY maxX r = none) ∧
    (maxX - r.x - 1 = 0 → safe_addstr maxY maxX r = none) := by
  refine ⟨?_, ?_, ?_, ?_⟩
  · intro wr hw
    unfold safe_addstr at hw
    split at hw
    · exact absurd hw (by simp)
    · split at hw
      · exact absurd hw (by simp)
      · rename_i hg havail
        push_neg at hg
        injection hw with h'
        subst h'
        have hlen := strTake_length_le r.text (maxX - r.x - 1)
        dsimp only
        exact ⟨hlen, by omega⟩
  · intro hy
    simp [safe_addstr, hy]
  · intro hx
    simp [safe_addstr, hx]
  · intro havail
    simp [safe_addstr, havail]

/-- Witness for C9: at window width 10, a write at column 3 of a 10-char
text is truncated to 6 characters (columns 3..8, column 9 untouched), and a
write below the window performs nothing. -/
theorem C9_witness :
    ((strTake "abcdefghij" 6).length ≤ 10 - 3 - 1 ∧
      3 + (strTake "abcdefghij" 6).length < 10) ∧
    safe_addstr 5 10 ⟨7, 3, "zz", 0⟩ = none :=
  ⟨by
    have h := (C9_safe_addstr_reserves_last_column 5 10 ⟨2, 3, "abcdefghij", 0⟩).1
      ⟨2, 3, strTake "abcdefghij" 6, 0⟩ (by decide)
    exact h,
   (C9_safe_addstr_reserves_last_column 5 10 ⟨7, 3, "zz", 0⟩).2.1 (by decide)⟩

/-! ## Claim C10 -/

/-- Claim C10: when the prompt input is empty after stripping surrounding
whitespace, `add_allow_rule` and `add_deny_rule` run no external command
and leave the state (message and snapshot included) unchanged. -/
theorem C10_empty_input_noop (st : State) (raw : String) (ok : Bool)
    (err : String) (sn : Snapshot) (h : pyStrip raw = "") :
    add_allow_rule st raw ok err sn = (st, none) ∧
    add_deny_rule st raw ok err sn = (st, none) := by
  constructor <;> simp [add_allow_rule, add_deny_rule, h]

/-- Witness for C10: whitespace-only input cancels both add actions. -/
theorem C10_witness :
    pyStrip "  \t " = "" ∧
    add_allow_rule exState "  \t " true "err" snap3 = (exState, none) ∧
    add_deny_rule exState "  \t " true "err" snap3 = (exState, none) :=
  ⟨by decide,
   (C10_empty_input_noop exState "  \t " true "err" snap3 (by decide)).1,
   (C10_empty_input_noop exState "  \t " true "err" snap3 (by decide)).2⟩

/-! ## Claim C2 -/

/-- Claim C2: for every terminal size with `width ≥ 40` and `height ≥ 10`
and every state, every write performed by the renderer stays inside
`[0,height) × [0,width)` (rows and columns are naturals, and each write of
length `n` at `(y, x)` covers columns `x .. x+n-1 < width`); over-long text
is truncated by `safe_addstr`, never wrapped. -/
theorem C2_render_in_bounds (h w : Nat) (st : State) (status : Bool)
    (hh : 10 ≤ h) (hw : 40 ≤ w) :
    (draw_screen h w st status).Forall
      (fun wr => wr.y < h ∧ wr.x + wr.text.length < w) := by
  rw [List.forall_iff_forall_mem]
  intro wr hwr
  rw [draw_screen, List.mem_filterMap] at hwr
  obtain ⟨r, -, hr⟩ := hwr
  obtain ⟨h1, h2, h3, h4⟩ := safe_addstr_some_bounds hr
  exact ⟨h1, h4⟩

/-- Witness for C2 at a concrete 12×50 terminal and state. -/
theorem C2_witness :
    (draw_screen 12 50 exMsgState true).Forall
      (fun wr => wr.y < 12 ∧ wr.x + wr.text.length < 50) :=
  C2_render_in_bounds 12 50 exMsgState true (by decide) (by decide)

/-! ## Claim C3 -/

/-- Counterexample to C3: on a 1×1 terminal (which is smaller than the
40×10 floor) the render output is empty — `safe_addstr` drops the
"terminal too small" notice because no width is available — so the output
does not consist of exactly one line. -/
theorem C3_counterexample :
    ((1 : Nat) < 40 ∨ (1 : Nat) < 10) ∧ draw_screen 1 1 exState true = [] :=
  ⟨Or.inl (by decide), by decide⟩

/-- Claim C3 as amended: below the 40×10 floor the render output is exactly
the single "terminal too small" notice, truncated to the first `width - 1`
characters, with no header, panels, divider, footer or message — provided
the terminal has at least 1 row and 2 columns; on a degenerate terminal
(`height = 0` or `width ≤ 1`) nothing at all is emitted. -/
theorem C3_small_terminal_single_notice (h w : Nat) (st : State)
    (status : Bool) (hsmall : w < 40 ∨ h < 10) (hh : 1 ≤ h) (hw : 2 ≤ w) :
    draw_screen h w st status =
      [⟨0, 0, strTake "Terminal too small! Min: 40x10" (w - 1), 0⟩] := by
  rw [draw_screen, draw_reqs, if_pos hsmall.symm]
  simp only [List.filterMap]
  rw [safe_addstr]
  rw [if_neg (by dsimp only; omega), if_neg (by dsimp only; omega)]
  rfl

/-- Witness for C3 as amended, at a 5×20 terminal: exactly the truncated
notice. -/
theorem C3_witness :
    ((20 : Nat) < 40 ∨ (5 : Nat) < 10) ∧
      draw_screen 5 20 exState true =
        [⟨0, 0, strTake "Terminal too small! Min: 40x10" (20 - 1), 0⟩] :=
  ⟨Or.inl (by decide),
   C3_small_terminal_single_notice 5 20 exState true (Or.inl (by decide))
     (by decide) (by decide)⟩

/-! ## Claim C4 -/

theorem move_selection_view_snap (st : State) (d : Int) (b : Bool) :
    (move_selection st d b).current_view = st.current_view ∧
    (move_selection st d b).snap = st.snap := by
  unfold move_selection
  split <;> split <;> exact ⟨rfl, rfl⟩

theorem activeCount_move_selection (st : State) (d : Int) (b : Bool) :
    activeCount (move_selection st d b) = activeCount st := by
  obtain ⟨h1, h2⟩ := move_selection_view_snap st d b
  unfold activeCount
  rw [h1, h2]

theorem move_selection_right_val (st : State) (d : Int)
    (h : 0 < activeCount st) :
    (move_selection st d false).selected_right =
      max 0 (min ((activeCount st : Int) - 1) (st.selected_right + d)) := by
  unfold move_selection
  simp only [Bool.false_eq_true, if_false]
  rw [if_pos (by omega : (0 : Int) ≤ (activeCount st : Int) - 1)]

theorem move_selection_right_empty (st : State) (d : Int)
    (h : activeCount st = 0) : move_selection st d false = st := by
  unfold move_selection
  simp only [Bool.false_eq_true, if_false]
  rw [if_neg (by omega : ¬ (0 : Int) ≤ (activeCount st : Int) - 1)]

theorem iterMoveDown_val (n : Nat) (hn : 0 < n) :
    ∀ (k : Nat) (st : State), activeCount st = n →
      0 ≤ st.selected_right → st.selected_right ≤ (n : Int) - 1 →
      (iterMoveDown k st).selected_right =
        min ((n : Int) - 1) (st.selected_right + k) := by
  intro k
  induction k with
  | zero =>
    intro st hcnt h0 h1
    simp only [iterMoveDown, Nat.cast_zero, Int.add_zero]
    omega
  | succ k ih =>
    intro st hcnt h0 h1
    rw [iterMoveDown]
    have hcnt' : activeCount (move_selection st 1 false) = n := by
      rw [activeCount_move_selection, hcnt]
    have hval := move_selection_right_val st 1 (by omega)
    rw [hcnt] at hval
    have h0' : 0 ≤ (move_selection st 1 false).selected_right := by
      rw [hval]; omega
    have h1' : (move_selection st 1 false).selected_right ≤ (n : Int) - 1 := by
      rw [hval]; omega
    rw [ih (move_selection st 1 false) hcnt' h0' h1', hval]
    omega

/-- Claim C4: selection movement clamps saturating, not wrapping — on an
active collection of size `N > 0`, `N + 5` repeated `MoveSelection(+1)`
steps land on index `N - 1` (from any integer starting index: the first
move already clamps into `[0, N-1]`); and on an empty active collection a
move in either direction is a no-op, leaving the whole state (hence a
selection index of 0) unchanged and raising no error (the function is
total). -/
theorem C4_saturating_clamp (st : State) (n : Nat) (hn : activeCount st = n) :
    (0 < n → (iterMoveDown (n + 5) st).selected_right = (n : Int) - 1) ∧
    (n = 0 → ∀ d : Int, move_selection st d false = st) := by
  constructor
  · intro hpos
    have step1 : iterMoveDown (n + 5) st
        = iterMoveDown (n + 4) (move_selection st 1 false) := rfl
    rw [step1]
    have hval := move_selection_right_val st 1 (by omega)
    rw [hn] at hval
    have hcnt1 : activeCount (move_selection st 1 false) = n := by
      rw [activeCount_move_selection, hn]
    rw [iterMoveDown_val n hpos (n + 4) (move_selection st 1 false) hcnt1
      (by rw [hval]; omega) (by rw [hval]; omega), hval]
    push_cast
    omega
  · intro h0 d
    exact move_selection_right_empty st d (by omega)

/-- Witness for C4: with one rule and a stale selection of 7, six
down-moves end at index 0 = N-1; with the empty applications view, a move
is a no-op. -/
theorem C4_witness :
    ((iterMoveDown 6 { exState with selected_right := 7 }).selected_right
      = (1 : Int) - 1) ∧
    (move_selection (change_view exState .APPS) (-1) false
      = change_view exState .APPS) :=
  ⟨(C4_saturating_clamp { exState with selected_right := 7 } 1 (by decide)).1
      (by decide),
   (C4_saturating_clamp (change_view exState .APPS) 0 (by decide)).2 rfl (-1)⟩

/-! ## Claim C1 -/

theorem move_selection_left_val (st : State) (d : Int) :
    (move_selection st d true).selected_left =
      max 0 (min ((visibleCommands.length : Int) - 1) (st.selected_left + d)) ∧
    (move_selection st d true).selected_right = st.selected_right := by
  unfold move_selection
  rw [if_pos (rfl : (true : Bool) = true),
    if_pos (by decide : (0 : Int) ≤ (visibleCommands.length : Int) - 1)]
  exact ⟨rfl, rfl⟩

theorem move_selection_right_frame (st : State) (d : Int) :
    (move_selection st d false).selected_left = st.selected_left := by
  unfold move_selection
  simp only [Bool.false_eq_true, if_false]
  split <;> rfl

theorem move_selection_preserves (st : State) (d : Int) (b : Bool)
    (h1 : 0 ≤ st.selected_left)
    (h2 : st.selected_left < (visibleCommands.length : Int))
    (h3 : 0 ≤ st.selected_right) :
    0 ≤ (move_selection st d b).selected_left ∧
    (move_selection st d b).selected_left < (visibleCommands.length : Int) ∧
    0 ≤ (move_selection st d b).selected_right := by
  have hlen : (visibleCommands.length : Int) = 10 := by decide
  cases b with
  | true =>
    obtain ⟨hl, hr⟩ := move_selection_left_val st d
    exact ⟨by rw [hl]; omega, by rw [hl]; omega, by rw [hr]; exact h3⟩
  | false =>
    have hl := move_selection_right_frame st d
    refine ⟨by rw [hl]; exact h1, by rw [hl]; exact h2, ?_⟩
    by_cases hc : 0 < activeCount st
    · rw [move_selection_right_val st d hc]
      omega
    · rw [move_selection_right_empty st d (by omega)]
      exact h3

/-- Counterexample to C1: the invariant is not preserved by a data refresh
that shrinks the active collection.  Starting from three rules, focusing
the right panel and moving down twice puts the right selection at 2; a
refresh that returns a single rule leaves the selection at 2, which equals
or exceeds the new collection length 1.  This state is reachable, so the
right-panel index is not always below the active collection length. -/
theorem C1_counterexample :
    Reachable shrunkSt ∧ shrunkSt.selected_right = 2 ∧
      (activeCount shrunkSt : Int) = 1 ∧
      ¬ shrunkSt.selected_right < (activeCount shrunkSt : Int) := by
  refine ⟨?_, by decide, by decide, by decide⟩
  exact Reachable.step _ _ (Reachable.step _ _ (Reachable.step _ _
    (Reachable.step _ _ (Reachable.init snap3))))

/-- Claim C1 as amended: in every reachable state both selection indices
are non-negative and the left-panel index stays below the count of
non-separator menu entries; the right-panel index, however, is only
re-clamped below the active collection length by each `MoveSelection` on a
nonempty collection and reset to 0 by each `SetView` — a refresh that
shrinks the active collection can leave it at or above the collection
length until the next such operation (and on an empty collection it equals
the length 0). -/
theorem C1_amended_clamping :
    (∀ st : State, Reachable st →
        0 ≤ st.selected_left ∧
        st.selected_left < (visibleCommands.length : Int) ∧
        0 ≤ st.selected_right) ∧
    (∀ (st : State) (d : Int), 0 < activeCount st →
        0 ≤ (move_selection st d false).selected_right ∧
        (move_selection st d false).selected_right < (activeCount st : Int)) ∧
    (∀ (st : State) (m : ViewMode), (change_view st m).selected_right = 0) := by
  refine ⟨?_, ?_, ?_⟩
  · intro st h
    induction h with
    | init snap =>
      refine ⟨le_refl 0, ?_, le_refl 0⟩
      show (0 : Int) < (visibleCommands.length : Int)
      decide
    | step st' e hr ih =>
      obtain ⟨ih1, ih2, ih3⟩ := ih
      cases e with
      | key_up => exact move_selection_preserves st' (-1) st'.focus_left ih1 ih2 ih3
      | key_down => exact move_selection_preserves st' 1 st'.focus_left ih1 ih2 ih3
      | key_left => exact ⟨ih1, ih2, ih3⟩
      | key_right => exact ⟨ih1, ih2, ih3⟩
      | set_view m => exact ⟨ih1, ih2, le_refl 0⟩
      | do_refresh snap => exact ⟨ih1, ih2, ih3⟩
  · intro st d hc
    constructor
    · rw [move_selection_right_val st d hc]
      omega
    · rw [move_selection_right_val st d hc]
      omega
  · intro st m
    rfl

/-- Witness for C1 as amended, at the concrete reachable state of the
counterexample trace. -/
theorem C1_witness :
    0 ≤ shrunkSt.selected_left ∧
    shrunkSt.selected_left < (visibleCommands.length : Int) ∧
    0 ≤ shrunkSt.selected_right :=
  C1_amended_clamping.1 shrunkSt
    (Reachable.step _ _ (Reachable.step _ _ (Reachable.step _ _
      (Reachable.step _ _ (Reachable.init snap3)))))

/-! ## Claim C6 -/

/-- Claim C6: mapping a selection index to a menu entry skips separators
(empty labels) in declaration order — on entries `[A, "", B, C]` selectable
index 1 resolves to `B` — and `execute_selected` with a selection index at
or above the number of non-separator entries executes no action. -/
theorem C6_separator_mapping :
    (∀ (la lb lc : String) (a b c : Option MenuAction),
        la ≠ "" → lb ≠ "" → lc ≠ "" →
        (selectableCmds [(la, a), ("", none), (lb, b), (lc, c)]).get? 1
          = some (lb, b)) ∧
    (∀ st : State,
        ((selectableCmds left_commands).length : Int) ≤ st.selected_left →
        execute_selected st = none) := by
  constructor
  · intro la lb lc a b c ha hb hc
    simp [selectableCmds, List.filter, ha, hb, hc]
  · intro st hle
    unfold execute_selected
    rw [if_neg (by omega)]

/-- Witness for C6: the concrete four-entry list with a separator in second
position, and a state whose left selection equals the count (10) of
non-separator menu entries. -/
theorem C6_witness :
    (selectableCmds
        [("A", some MenuAction.quitA), ("", none),
         ("B", some MenuAction.refreshA), ("C", none)]).get? 1
      = some ("B", some MenuAction.refreshA) ∧
    execute_selected { exState with selected_left := 10 } = none :=
  ⟨C6_separator_mapping.1 "A" "B" "C" (some MenuAction.quitA)
      (some MenuAction.refreshA) none (by decide) (by decide) (by decide),
   C6_separator_mapping.2 { exState with selected_left := 10 } (by decide)⟩

/-! ## Claim C8 -/

/-- Claim C8: with a pending message and a terminal at or above the size
floor, the rendered message line (row `height-2`, column 2, truncated to
the available width) carries the success color pair 4 exactly when the
message contains `"success"` case-insensitively, and the error color
pair 3 otherwise. -/
theorem C8_message_styling (h w : Nat) (st : State) (status : Bool)
    (hh : 10 ≤ h) (hw : 40 ≤ w) (hm : st.message ≠ "") :
    ((⟨h - 2, 2, strTake st.message (w - 2 - 1),
        messageAttr st.message⟩ : Wr) ∈ draw_screen h w st status) ∧
    (messageAttr st.message = 4 ↔
      strContainsSub (lowerStr st.message) "success" = true) ∧
    (messageAttr st.message = 3 ↔
      ¬ strContainsSub (lowerStr st.message) "success" = true) := by
  refine ⟨?_, ?_, ?_⟩
  · rw [draw_screen, List.mem_filterMap]
    refine ⟨⟨h - 2, 2, st.message, messageAttr st.message⟩, ?_, ?_⟩
    · rw [draw_reqs, if_neg (by omega)]
      refine List.mem_cons_of_mem _ ?_
      rw [if_pos (⟨hm, by omega⟩ : st.message ≠ "" ∧ 3 < h)]
      simp [List.mem_append]
    · rw [safe_addstr]
      rw [if_neg (by dsimp only; omega), if_neg (by dsimp only; omega)]
  · unfold messageAttr
    split <;> simp_all
  · unfold messageAttr
    split <;> simp_all

/-- Witness for C8 with the success message `"Rule added successfully"` on
a 10×40 terminal. -/
theorem C8_witness :
    ((⟨10 - 2, 2, strTake exMsgState.message (40 - 2 - 1),
        messageAttr exMsgState.message⟩ : Wr)
      ∈ draw_screen 10 40 exMsgState true) ∧
    (messageAttr exMsgState.message = 4 ↔
      strContainsSub (lowerStr exMsgState.message) "success" = true) :=
  ⟨(C8_message_styling 10 40 exMsgState true (by decide) (by decide)
      (by decide)).1,
   (C8_message_styling 10 40 exMsgState true (by decide) (by decide)
      (by decide)).2.1⟩

/-! ## Claim C7 -/

theorem matchAlt_mem {alts : List String} {cs rest : List Char} {a : String}
    (h : matchAlt alts cs = some (a, rest)) : a ∈ alts := by
  induction alts with
  | nil => simp [matchAlt] at h
  | cons x xs ih =>
    rw [matchAlt] at h
    split at h
    · simp only [Option.some.injEq, Prod.mk.injEq] at h
      obtain ⟨rfl, -⟩ := h
      exact List.mem_cons_self x xs
    · exact List.mem_cons_of_mem x (ih h)

theorem matchTail_action {cs : List Char} {a d f : String}
    (h : matchTail cs = some (a, d, f)) :
    a = "ALLOW" ∨ a = "DENY" ∨ a = "REJECT" := by
  simp only [matchTail] at h
  split at h
  · exact absurd h (by simp)
  · split at h
    · exact absurd h (by simp)
    · rename_i act cs2 heq
      split at h
      · exact absurd h (by simp)
      · split at h
        · exact absurd h (by simp)
        · split at h
          · exact absurd h (by simp)
          · simp only [Option.some.injEq, Prod.mk.injEq] at h
            obtain ⟨rfl, -, -⟩ := h
            have hmem := matchAlt_mem heq
            simpa using hmem

theorem lazyLoop_action : ∀ (cs acc : List Char) {t a d f : String},
    lazyLoop acc cs = some (t, a, d, f) →
    a = "ALLOW" ∨ a = "DENY" ∨ a = "REJECT" := by
  intro cs
  induction cs with
  | nil =>
    intro acc t a d f h
    simp [lazyLoop] at h
  | cons c rest ih =>
    intro acc t a d f h
    rw [lazyLoop] at h
    split at h
    · rename_i act dir fromA heq
      simp only [Option.some.injEq, Prod.mk.injEq] at h
      obtain ⟨-, rfl, -, -⟩ := h
      exact matchTail_action heq
    · exact ih _ h

theorem goSpaces_action : ∀ (s : Nat) (cs : List Char) {t a d f : String},
    goSpaces s cs = some (t, a, d, f) →
    a = "ALLOW" ∨ a = "DENY" ∨ a = "REJECT" := by
  intro s
  induction s with
  | zero =>
    intro cs t a d f h
    simp [goSpaces] at h
  | succ s ih =>
    intro cs t a d f h
    rw [goSpaces] at h
    split at h
    · rename_i r heq
      injection h with h'
      subst h'
      exact lazyLoop_action _ _ heq
    · exact ih cs h

theorem parseRuleLine_action {line : List Char} {ru : UFWRule}
    (h : parseRuleLine line = some ru) :
    ru.action = "ALLOW" ∨ ru.action = "DENY" ∨ ru.action = "REJECT" := by
  simp only [parseRuleLine] at h
  split at h
  · split at h
    · split at h
      · exact absurd h (by simp)
      · split at h
        · split at h
          · rename_i toPart act dir fromA heq
            simp only [Option.some.injEq] at h
            subst h
            unfold spaceLazy at heq
            exact goSpaces_action _ _ heq
          · exact absurd h (by simp)
        · exact absurd h (by simp)
    · exact absurd h (by simp)
  · exact absurd h (by simp)

/-- Claim C7: `get_rules` skips the fixed 4-line header (the sample stdout's
first line is rule-shaped yet ignored), silently skips non-matching lines,
parses `"[ 1] 22/tcp                     ALLOW IN    Anywhere"` to the rule
`(num="1", to="22/tcp IN", action="ALLOW", from="Anywhere")`, and every
parsed rule's action is one of ALLOW, DENY, REJECT. -/
theorem C7_status_numbered_parsing :
    get_rules 0 exStatusOut = [⟨"1", "22/tcp IN", "ALLOW", "Anywhere"⟩] ∧
    (∀ (code : Int) (out : String),
      (get_rules code out).all
        (fun r => r.action == "ALLOW" || r.action == "DENY"
          || r.action == "REJECT") = true) := by
  constructor
  · decide
  · intro code out
    rw [List.all_eq_true]
    intro r hr
    unfold get_rules at hr
    split at hr
    · simp at hr
    · rw [List.mem_filterMap] at hr
      obtain ⟨line, -, hline⟩ := hr
      rcases parseRuleLine_action hline with h | h | h <;> simp [h]
